import Mathlib

/-!
Shallow embedding of `src/event_bus.c` / `src/event_bus.h` from the
event-bus-freertos repository.

The C module keeps a static table
`event_task_handler_t events[EVENT_BUS_QTY][EVENT_LIST_DEPHT]`, where a
handler is a raw pointer (`void *`) and `NULL` marks an empty slot.  We model
handlers as natural numbers with `0` playing the role of `NULL`, a row of the
table as a `List Handler` (the real rows have length `EVENT_LIST_DEPHT = 5`),
and the whole table as a total function `Nat → List Handler` — the C code
indexes `events[event]` with no range check, so every index has a row in the
model.  The FreeRTOS task-notification state (one counter per task and
notification index) is a function `Handler → Nat → Nat`.
-/

namespace EventBus

/-- `EVENT_LIST_DEPHT` from `event_bus.c`: number of subscriber slots per event. -/
def EVENT_LIST_DEPHT : Nat := 5

/-- `EVENT_BUS_QTY` from the enum in `event_bus.h`: RESERVED, FRAME_BEGIN_SYNC,
FRAME_END_SYNC, H264_ENCODE_COMPLETE, H264_ENCODE_ALL_FRAMES — five values. -/
def EVENT_BUS_QTY : Nat := 5

/-- `event_task_handler_t` (`void *`): modelled as a natural number. -/
abbrev Handler := Nat

/-- The C `NULL` pointer, the empty-slot marker. -/
def NULL : Handler := 0

/-- Full state of the embedded system: the subscription table `events` from
`event_bus.c`, plus the FreeRTOS per-task, per-index notification counters
(the external Suspension Primitive). -/
@[ext]
structure BusState where
  events : Nat → List Handler
  notif : Handler → Nat → Nat

/-- The startup state: `events` is zero-initialised (`= {0}` in the C source)
and no task has a pending notification. -/
def initState : BusState :=
  { events := fun _ => List.replicate EVENT_LIST_DEPHT NULL
    notif := fun _ _ => 0 }

/-- The loop body of `event_bus_modify_value` on one row: scan left to right
for the first slot equal to `old`, overwrite it with `new`.  `none` models the
C function falling through the loop and returning `NULL`. -/
def modifyRow (old new : Handler) : List Handler → Option (List Handler)
  | [] => none
  | x :: xs => if x = old then some (new :: xs) else (modifyRow old new xs).map (x :: ·)

/-- `event_bus_modify_value(event, old, new)`: mutate the first slot of row
`event` holding `old` to `new` and return `new`; return `NULL` when no slot
holds `old`.  The result pairs the new state with the C return value. -/
def event_bus_modify_value (st : BusState) (event : Nat) (old new : Handler) :
    BusState × Handler :=
  match modifyRow old new (st.events event) with
  | some row => ({ st with events := Function.update st.events event row }, new)
  | none => (st, NULL)

/-- `event_bus_subscribe_ex(event, h_task)`: delegate to
`event_bus_modify_value(event, NULL, h_task)` and assert the returned pointer.
`ASSERT_POINTER` lives in `debug_tools/debug.h`, outside `src/`; modelled from
the spec (CapacityExhausted is "propagated as an unrecoverable assertion"):
the `Bool` component is `true` exactly when the asserted pointer is non-NULL,
i.e. when the assertion does not fire. -/
def event_bus_subscribe_ex (st : BusState) (event : Nat) (h_task : Handler) :
    BusState × Bool :=
  let r := event_bus_modify_value st event NULL h_task
  (r.1, decide (r.2 ≠ NULL))

/-- `event_bus_unsubscribe_ex(event, h_task)`: delegate to
`event_bus_modify_value(event, h_task, NULL)`.  The C function has return type
`void`: the helper's return value is discarded and only the state survives. -/
def event_bus_unsubscribe_ex (st : BusState) (event : Nat) (h_task : Handler) :
    BusState :=
  (event_bus_modify_value st event h_task NULL).1

/-- Modelled from the spec: FreeRTOS `xTaskNotifyGiveIndexed(task, index)`
(the external Suspension Primitive's `signal`), which increments the task's
notification value at `index`. -/
def xTaskNotifyGiveIndexed (st : BusState) (h_task : Handler) (index : Nat) :
    BusState :=
  { st with
    notif := fun h2 i2 =>
      if h2 = h_task ∧ i2 = index then st.notif h2 i2 + 1 else st.notif h2 i2 }

/-- The loop of `event_bus_push`: walk the row, and for every non-NULL slot
signal that task at notification index `event`.  The second component records
the signals `(task, event)` in the order they are issued. -/
def pushLoop (event : Nat) : BusState → List Handler → BusState × List (Handler × Nat)
  | st, [] => (st, [])
  | st, x :: xs =>
    if x = NULL then
      pushLoop event st xs
    else
      let r := pushLoop event (xTaskNotifyGiveIndexed st x event) xs
      (r.1, (x, event) :: r.2)

/-- `event_bus_push(event)`: iterate the event's slot sequence once, signalling
every occupied slot; `portYIELD()` afterwards has no effect on this state. -/
def event_bus_push (st : BusState) (event : Nat) : BusState × List (Handler × Nat) :=
  pushLoop event st (st.events event)

/-- Modelled from the spec: FreeRTOS
`ulTaskNotifyTakeIndexed(index, pdTRUE, timeout)` called by task `h_task`
(the external Suspension Primitive's `await`): if the notification value at
`index` is non-zero (a latched signal) it returns that value immediately;
otherwise, with no concurrent push during the wait, it returns 0 after the
timeout.  With `pdTRUE` the value is cleared to zero on exit. -/
def ulTaskNotifyTakeIndexed (st : BusState) (h_task : Handler) (index : Nat)
    (timeout : Nat) : Nat × BusState :=
  (st.notif h_task index,
   { st with
     notif := fun h2 i2 =>
       if h2 = h_task ∧ i2 = index then 0 else st.notif h2 i2 })

/-- `event_bus_wait(event, timeout)` as executed by task `h_task`:
`return ulTaskNotifyTakeIndexed(event, pdTRUE, timeout) != 0`. -/
def event_bus_wait (st : BusState) (h_task : Handler) (event : Nat)
    (timeout : Nat) : Bool × BusState :=
  let r := ulTaskNotifyTakeIndexed st h_task event timeout
  (decide (r.1 ≠ 0), r.2)

/-- The occupied slots of a row, in slot order: exactly the handlers that one
`event_bus_push` pass signals. -/
def occupied (row : List Handler) : List Handler :=
  row.filter (fun x => decide (x ≠ NULL))

/-! ### Concrete states and iterated-subscription helpers used by the
witnesses and counterexamples -/

/-- A concrete state: event 1 has subscribers 3 and 7 in slots 0 and 2, every
other slot of every event is empty, no pending notifications. -/
def w1 : BusState :=
  { events := fun e => if e = 1 then [3, 0, 7, 0, 0] else List.replicate 5 0
    notif := fun _ _ => 0 }

/-- A concrete state in which event 1 has the single subscriber 7 (slot 0). -/
def c4cleared : BusState :=
  { events := fun e => if e = 1 then [7, 0, 0, 0, 0] else List.replicate 5 0
    notif := fun _ _ => 0 }

/-- A concrete state in which task 4 has one latched notification at index 2. -/
def w8 : BusState :=
  { events := fun _ => List.replicate 5 0
    notif := fun h2 i2 => if h2 = 4 ∧ i2 = 2 then 1 else 0 }

/-- A concrete state in which event 0's row is completely full. -/
def w10 : BusState :=
  { events := fun _ => [1, 2, 3, 4, 5]
    notif := fun _ _ => 0 }

/-- Subscribe each handler of the list to event 1 in turn (the capacity
scenario of the spec). -/
def c3run : BusState → List Handler → BusState
  | st, [] => st
  | st, h :: hs => c3run (event_bus_subscribe_ex st 1 h).1 hs

/-- `true` when every subscription in the chain passes its assertion. -/
def c3ok : BusState → List Handler → Bool
  | _, [] => true
  | st, h :: hs =>
    (event_bus_subscribe_ex st 1 h).2 && c3ok (event_bus_subscribe_ex st 1 h).1 hs

/-! ### Lemmas about the search-and-replace loop -/

theorem modifyRow_eq_none (old new : Handler) (l : List Handler) :
    modifyRow old new l = none ↔ old ∉ l := by
  induction l with
  | nil => simp [modifyRow]
  | cons x xs ih =>
    by_cases hx : x = old
    · simp [modifyRow, hx]
    · simp [modifyRow, hx, ih, Ne.symm hx]

theorem modifyRow_first (old new : Handler) (l : List Handler) (j : Nat)
    (hj : j < l.length) (hhit : l.getD j NULL = old)
    (hfirst : ∀ i, i < j → l.getD i NULL ≠ old) :
    modifyRow old new l = some (l.set j new) := by
  induction l generalizing j with
  | nil => simp at hj
  | cons x xs ih =>
    cases j with
    | zero =>
      simp only [List.getD_cons_zero] at hhit
      simp [modifyRow, hhit]
    | succ j =>
      have hx : x ≠ old := by
        have := hfirst 0 (Nat.succ_pos j)
        simpa using this
      have hrec := ih j (by simpa using hj) (by simpa using hhit)
        (fun i hi => by simpa using hfirst (i + 1) (Nat.succ_lt_succ hi))
      simp [modifyRow, hx, hrec]

theorem modifyRow_roundtrip (h : Handler) (l l2 : List Handler)
    (habs : h ∉ l) (hfree : NULL ∈ l)
    (hsub : modifyRow NULL h l = some l2) :
    modifyRow h NULL l2 = some l := by
  induction l generalizing l2 with
  | nil => simp at hfree
  | cons x xs ih =>
    by_cases hx : x = NULL
    · subst hx
      simp [modifyRow] at hsub
      subst hsub
      simp [modifyRow]
    · have hxh : x ≠ h := fun e => habs (e ▸ List.mem_cons_self x xs)
      simp only [modifyRow, if_neg hx, Option.map_eq_some'] at hsub
      obtain ⟨l3, h3, rfl⟩ := hsub
      have hfree2 : NULL ∈ xs := by
        rcases List.mem_cons.1 hfree with h0 | h0
        · exact absurd h0.symm hx
        · exact h0
      have habs2 : h ∉ xs := fun hm => habs (List.mem_cons_of_mem _ hm)
      have hrec := ih l3 habs2 hfree2 h3
      simp [modifyRow, hxh, hrec]

theorem modifyRow_self (a : Handler) (l : List Handler) :
    modifyRow a a l = if a ∈ l then some l else none := by
  induction l with
  | nil => simp [modifyRow]
  | cons x xs ih =>
    by_cases hx : x = a
    · subst hx
      simp [modifyRow]
    · simp only [modifyRow, if_neg hx, ih]
      by_cases hm : a ∈ xs <;> simp [hm, hx, Ne.symm hx]

theorem modifyRow_mem_new (old new : Handler) (l l2 : List Handler)
    (h : modifyRow old new l = some l2) : new ∈ l2 := by
  induction l generalizing l2 with
  | nil => simp [modifyRow] at h
  | cons x xs ih =>
    by_cases hx : x = old
    · simp only [modifyRow, if_pos hx, Option.some_inj] at h
      subst h
      exact List.mem_cons_self _ _
    · simp only [modifyRow, if_neg hx, Option.map_eq_some'] at h
      obtain ⟨l3, h3, rfl⟩ := h
      exact List.mem_cons_of_mem _ (ih l3 h3)

theorem set_getD_self (l : List Handler) (j : Nat) :
    l.set j (l.getD j NULL) = l := by
  induction l generalizing j with
  | nil => simp
  | cons x xs ih =>
    cases j with
    | zero => simp
    | succ n => simpa [List.getD_eq_getElem?_getD] using ih n

/-! ### Lemmas about `occupied` and the push loop -/

theorem occupied_nil : occupied [] = [] := rfl

theorem occupied_cons (x : Handler) (xs : List Handler) :
    occupied (x :: xs) = if x = NULL then occupied xs else x :: occupied xs := by
  by_cases hx : x = NULL <;> simp [occupied, List.filter_cons, hx]

theorem xTaskNotifyGiveIndexed_events (st : BusState) (h : Handler) (i : Nat) :
    (xTaskNotifyGiveIndexed st h i).events = st.events := rfl

theorem pushLoop_events (e : Nat) (st : BusState) (row : List Handler) :
    (pushLoop e st row).1.events = st.events := by
  induction row generalizing st with
  | nil => rfl
  | cons x xs ih =>
    by_cases hx : x = NULL
    · simp [pushLoop, hx, ih]
    · simp [pushLoop, hx, ih, xTaskNotifyGiveIndexed]

theorem pushLoop_sigs (e : Nat) (st : BusState) (row : List Handler) :
    (pushLoop e st row).2 = (occupied row).map (fun h => (h, e)) := by
  induction row generalizing st with
  | nil => rfl
  | cons x xs ih =>
    by_cases hx : x = NULL <;> simp [pushLoop, occupied_cons, hx, ih]

theorem pushLoop_notif (e : Nat) (st : BusState) (row : List Handler)
    (h : Handler) (i : Nat) :
    (pushLoop e st row).1.notif h i =
      if i = e then st.notif h i + (occupied row).count h else st.notif h i := by
  induction row generalizing st with
  | nil => simp [pushLoop, occupied_nil]
  | cons x xs ih =>
    by_cases hx : x = NULL
    · simp [pushLoop, hx, ih, occupied_cons]
    · simp only [pushLoop, if_neg hx]
      rw [ih]
      simp only [xTaskNotifyGiveIndexed, occupied_cons, if_neg hx, List.count_cons]
      by_cases hi : i = e
      · by_cases hhx : h = x
        · simp [hi, hhx]
          omega
        · have : x ≠ h := Ne.symm hhx
          simp [hi, hhx, this]
      · simp [hi]

theorem pushLoop_all_null (e : Nat) (st : BusState) (row : List Handler)
    (hrow : ∀ x ∈ row, x = NULL) :
    pushLoop e st row = (st, []) := by
  induction row with
  | nil => rfl
  | cons x xs ih =>
    have hx : x = NULL := hrow x (List.mem_cons_self x xs)
    simp only [pushLoop, if_pos hx]
    exact ih (fun y hy => hrow y (List.mem_cons_of_mem _ hy))

/-! ### Reduction lemmas for `event_bus_modify_value` -/

theorem modify_value_eq_some (st : BusState) (e : Nat) (old new : Handler)
    (row : List Handler) (hm : modifyRow old new (st.events e) = some row) :
    event_bus_modify_value st e old new =
      ({ st with events := Function.update st.events e row }, new) := by
  unfold event_bus_modify_value
  rw [hm]

theorem modify_value_eq_none (st : BusState) (e : Nat) (old new : Handler)
    (hm : modifyRow old new (st.events e) = none) :
    event_bus_modify_value st e old new = (st, NULL) := by
  unfold event_bus_modify_value
  rw [hm]

/-! ### Claim theorems -/

/-- Claim C1: for an event `E` whose row holds exactly the distinct non-null
identities `S` (in slot order), `event_bus_push st E` signals exactly the
members of `S`, each occupied slot exactly once, in slot order, all keyed by
`E` (so no subscriber of any other event is signaled); the subscription table
is not written, and the emitted signals are determined by row `E` alone (no
other event's slots are read for delivery). -/
theorem push_signals_exactly_subscribers (st : BusState) (E : Nat)
    (S : List Handler)
    (hwf : (st.events E).length = EVENT_LIST_DEPHT)
    (hS : occupied (st.events E) = S) (hnd : S.Nodup) :
    S.length ≤ EVENT_LIST_DEPHT ∧
    (event_bus_push st E).2 = S.map (fun h => (h, E)) ∧
    (∀ h, h ∈ S → (event_bus_push st E).1.notif h E = st.notif h E + 1) ∧
    (∀ h, h ∉ S → (event_bus_push st E).1.notif h E = st.notif h E) ∧
    (∀ h i, i ≠ E → (event_bus_push st E).1.notif h i = st.notif h i) ∧
    (event_bus_push st E).1.events = st.events ∧
    (∀ st2 : BusState, st2.events E = st.events E →
      (event_bus_push st2 E).2 = (event_bus_push st E).2) := by
  subst hS
  refine ⟨?_, ?_, ?_, ?_, ?_, ?_, ?_⟩
  · calc (occupied (st.events E)).length ≤ (st.events E).length :=
          List.length_filter_le _ _
      _ = EVENT_LIST_DEPHT := hwf
  · exact pushLoop_sigs E st (st.events E)
  · intro h hm
    rw [event_bus_push, pushLoop_notif, if_pos rfl, List.count_eq_one_of_mem hnd hm]
  · intro h hm
    rw [event_bus_push, pushLoop_notif, if_pos rfl, List.count_eq_zero_of_not_mem hm,
      Nat.add_zero]
  · intro h i hi
    rw [event_bus_push, pushLoop_notif, if_neg hi]
  · exact pushLoop_events E st (st.events E)
  · intro st2 h2
    rw [event_bus_push, event_bus_push, h2, pushLoop_sigs, pushLoop_sigs]

/-- Witness for C1 at the concrete state `w1`. -/
theorem push_signals_exactly_subscribers_witness :
    (w1.events 1).length = EVENT_LIST_DEPHT ∧
    occupied (w1.events 1) = [3, 7] ∧
    ([3, 7] : List Handler).Nodup ∧
    (event_bus_push w1 1).2 = ([3, 7] : List Handler).map (fun h => (h, 1)) :=
  ⟨by decide, by decide, by decide,
    (push_signals_exactly_subscribers w1 1 [3, 7] (by decide) (by decide)
      (by decide)).2.1⟩

/-- Claim C2: for a valid event and a non-null identity not already present,
`event_bus_subscribe_ex` writes the identity into the leftmost empty slot `j`
of that event's row, leaves every other slot of that row and every other
event's row unchanged, and does not touch the notification state.  The slot
choice is deterministic: it is forced to be `j`, the first empty index. -/
theorem subscribe_writes_first_empty_slot (st : BusState) (E : Nat)
    (h : Handler) (j : Nat)
    (hnn : h ≠ NULL) (hnp : h ∉ st.events E)
    (hj : j < (st.events E).length)
    (hempty : (st.events E).getD j NULL = NULL)
    (hfirst : ∀ i, i < j → (st.events E).getD i NULL ≠ NULL) :
    (event_bus_subscribe_ex st E h).1.events E = (st.events E).set j h ∧
    (∀ i, i ≠ j →
      ((event_bus_subscribe_ex st E h).1.events E).getD i NULL
        = (st.events E).getD i NULL) ∧
    (∀ E2, E2 ≠ E → (event_bus_subscribe_ex st E h).1.events E2 = st.events E2) ∧
    (event_bus_subscribe_ex st E h).1.notif = st.notif := by
  have hm := modifyRow_first NULL h (st.events E) j hj hempty hfirst
  have hred : (event_bus_subscribe_ex st E h).1 =
      { st with events := Function.update st.events E ((st.events E).set j h) } := by
    unfold event_bus_subscribe_ex
    rw [modify_value_eq_some st E NULL h _ hm]
  rw [hred]
  refine ⟨Function.update_same E _ st.events, ?_, ?_, rfl⟩
  · intro i hi
    show (Function.update st.events E ((st.events E).set j h) E).getD i NULL
        = (st.events E).getD i NULL
    rw [Function.update_same E _ st.events]
    simp [List.getElem?_set_ne (Ne.symm hi)]
  · intro E2 h2
    exact Function.update_noteq h2 _ st.events

/-- Witness for C2: subscribing handler 9 to event 2 of the startup state
writes slot 0, the leftmost empty slot. -/
theorem subscribe_writes_first_empty_slot_witness :
    (9 : Handler) ≠ NULL ∧ (9 : Handler) ∉ initState.events 2 ∧
    0 < (initState.events 2).length ∧
    (initState.events 2).getD 0 NULL = NULL ∧
    (event_bus_subscribe_ex initState 2 9).1.events 2
      = (initState.events 2).set 0 9 :=
  ⟨by decide, by decide, by decide, by decide,
    (subscribe_writes_first_empty_slot initState 2 9 0 (by decide) (by decide)
      (by decide) (by decide)
      (fun i hi => absurd hi (Nat.not_lt_zero i))).1⟩

/-- Claim C3: subscribing with no empty slot fails the CapacityExhausted
assertion and leaves the state unchanged; with an empty slot and a non-null
identity the assertion branch is unreachable; and, concretely, the first
`D = 5` distinct subscriptions to event 1 from the startup state all pass the
assertion while the sixth fails it. -/
theorem subscribe_capacity_boundary (st : BusState) (E : Nat) (h : Handler) :
    (NULL ∉ st.events E →
      (event_bus_subscribe_ex st E h).1 = st ∧
      (event_bus_subscribe_ex st E h).2 = false) ∧
    (NULL ∈ st.events E → h ≠ NULL →
      (event_bus_subscribe_ex st E h).2 = true) ∧
    c3ok initState [1, 2, 3, 4, 5] = true ∧
    (event_bus_subscribe_ex (c3run initState [1, 2, 3, 4, 5]) 1 6).2 = false := by
  refine ⟨?_, ?_, by decide, by decide⟩
  · intro hfull
    have hm := (modifyRow_eq_none NULL h (st.events E)).2 hfull
    unfold event_bus_subscribe_ex
    rw [modify_value_eq_none st E NULL h hm]
    exact ⟨rfl, rfl⟩
  · intro hfree hnn
    obtain ⟨l2, hsub⟩ : ∃ l2, modifyRow NULL h (st.events E) = some l2 := by
      cases hc : modifyRow NULL h (st.events E) with
      | none => exact absurd ((modifyRow_eq_none _ _ _).1 hc) (not_not_intro hfree)
      | some l2 => exact ⟨l2, rfl⟩
    unfold event_bus_subscribe_ex
    rw [modify_value_eq_some st E NULL h l2 hsub]
    simpa using hnn

/-- Witness for C3: in the full state `w10` the assertion fires and the table
is untouched; in the startup state with a free slot it does not fire. -/
theorem subscribe_capacity_boundary_witness :
    NULL ∉ w10.events 0 ∧ NULL ∈ initState.events 0 ∧ (7 : Handler) ≠ NULL ∧
    (event_bus_subscribe_ex w10 0 7).2 = false ∧
    (event_bus_subscribe_ex initState 0 7).2 = true :=
  ⟨by decide, by decide, by decide,
    ((subscribe_capacity_boundary w10 0 7).1 (by decide)).2,
    (subscribe_capacity_boundary initState 0 7).2.1 (by decide) (by decide)⟩

/-- Claim C4, amended: `event_bus_unsubscribe_ex` clears exactly the first
slot equal to the identity, is a no-op when the identity is absent, and leaves
other events and the notification state alone — but it reports nothing back:
its C return type is `void`, and the helper's return value (discarded by the
caller) is `NULL` whether or not a slot was cleared. -/
theorem unsubscribe_clears_first_match (st : BusState) (E : Nat) (h : Handler) :
    (∀ j, j < (st.events E).length → (st.events E).getD j NULL = h →
      (∀ i, i < j → (st.events E).getD i NULL ≠ h) →
      (event_bus_unsubscribe_ex st E h).events E = (st.events E).set j NULL) ∧
    (h ∉ st.events E → event_bus_unsubscribe_ex st E h = st) ∧
    (∀ E2, E2 ≠ E → (event_bus_unsubscribe_ex st E h).events E2 = st.events E2) ∧
    (event_bus_unsubscribe_ex st E h).notif = st.notif ∧
    (event_bus_modify_value st E h NULL).2 = NULL := by
  refine ⟨?_, ?_, ?_, ?_, ?_⟩
  · intro j hj hhit hfirst
    have hm := modifyRow_first h NULL (st.events E) j hj hhit hfirst
    unfold event_bus_unsubscribe_ex
    rw [modify_value_eq_some st E h NULL _ hm]
    exact Function.update_same E _ st.events
  · intro habs
    have hm := (modifyRow_eq_none h NULL (st.events E)).2 habs
    unfold event_bus_unsubscribe_ex
    rw [modify_value_eq_none st E h NULL hm]
  · intro E2 h2
    unfold event_bus_unsubscribe_ex
    cases hc : modifyRow h NULL (st.events E) with
    | none => rw [modify_value_eq_none st E h NULL hc]
    | some l2 =>
      rw [modify_value_eq_some st E h NULL l2 hc]
      exact Function.update_noteq h2 _ st.events
  · unfold event_bus_unsubscribe_ex
    cases hc : modifyRow h NULL (st.events E) with
    | none => rw [modify_value_eq_none st E h NULL hc]
    | some l2 => rw [modify_value_eq_some st E h NULL l2 hc]
  · cases hc : modifyRow h NULL (st.events E) with
    | none => rw [modify_value_eq_none st E h NULL hc]
    | some l2 => rw [modify_value_eq_some st E h NULL l2 hc]

/-- Counterexample to C4 as stated: unsubscribing 7 from event 1 clears a slot
in the state `c4cleared` and clears nothing in the startup state, yet the only
value the call computes for its caller — the helper's return value, which the
`void` wrapper discards anyway — is `NULL` in both runs, so the caller is not
told whether a slot was cleared. -/
theorem unsubscribe_reports_nothing_counterexample :
    (event_bus_modify_value c4cleared 1 7 NULL).2
      = (event_bus_modify_value initState 1 7 NULL).2 ∧
    (event_bus_modify_value c4cleared 1 7 NULL).1.events 1 ≠ c4cleared.events 1 ∧
    (event_bus_modify_value initState 1 7 NULL).1.events 1 = initState.events 1 := by
  refine ⟨by decide, by decide, by decide⟩

/-- Witness for the amended C4 at the concrete state `c4cleared`. -/
theorem unsubscribe_clears_first_match_witness :
    0 < (c4cleared.events 1).length ∧ (c4cleared.events 1).getD 0 NULL = 7 ∧
    (event_bus_unsubscribe_ex c4cleared 1 7).events 1
      = (c4cleared.events 1).set 0 NULL :=
  ⟨by decide, by decide,
    (unsubscribe_clears_first_match c4cleared 1 7).1 0 (by decide) (by decide)
      (fun i hi => absurd hi (Nat.not_lt_zero i))⟩

/-- Claim C5: unsubscribing a non-null identity that is not subscribed to the
event leaves the whole state — this event's slots, every other event's slots,
and the notification state — exactly unchanged. -/
theorem unsubscribe_absent_is_noop (st : BusState) (E : Nat) (h : Handler)
    (hnn : h ≠ NULL) (habs : h ∉ st.events E) :
    event_bus_unsubscribe_ex st E h = st := by
  have hm := (modifyRow_eq_none h NULL (st.events E)).2 habs
  unfold event_bus_unsubscribe_ex
  rw [modify_value_eq_none st E h NULL hm]

/-- Witness for C5: unsubscribing the absent handler 9 from event 1 of `w1`
is the identity. -/
theorem unsubscribe_absent_is_noop_witness :
    (9 : Handler) ≠ NULL ∧ (9 : Handler) ∉ w1.events 1 ∧
    event_bus_unsubscribe_ex w1 1 9 = w1 :=
  ⟨by decide, by decide, unsubscribe_absent_is_noop w1 1 9 (by decide) (by decide)⟩

/-- Claim C6: from any state in which the non-null identity `h` is not
subscribed to event `E` and a free slot exists, `subscribe` followed by
`unsubscribe` of the same pair restores the state exactly. -/
theorem subscribe_unsubscribe_roundtrip (st : BusState) (E : Nat) (h : Handler)
    (hnn : h ≠ NULL) (habs : h ∉ st.events E) (hfree : NULL ∈ st.events E) :
    event_bus_unsubscribe_ex (event_bus_subscribe_ex st E h).1 E h = st := by
  obtain ⟨l2, hsub⟩ : ∃ l2, modifyRow NULL h (st.events E) = some l2 := by
    cases hc : modifyRow NULL h (st.events E) with
    | none => exact absurd ((modifyRow_eq_none _ _ _).1 hc) (not_not_intro hfree)
    | some l2 => exact ⟨l2, rfl⟩
  have hback := modifyRow_roundtrip h (st.events E) l2 habs hfree hsub
  have hsubst : (event_bus_subscribe_ex st E h).1 =
      { st with events := Function.update st.events E l2 } := by
    unfold event_bus_subscribe_ex
    rw [modify_value_eq_some st E NULL h l2 hsub]
  rw [hsubst]
  have hrow : ({ st with events := Function.update st.events E l2 } :
      BusState).events E = l2 := Function.update_same E l2 st.events
  unfold event_bus_unsubscribe_ex
  rw [modify_value_eq_some _ E h NULL (st.events E) (by rw [hrow]; exact hback)]
  have hev : Function.update (Function.update st.events E l2) E (st.events E)
      = st.events := by
    rw [Function.update_idem, Function.update_eq_self]
  show ({ events := Function.update (Function.update st.events E l2) E (st.events E)
          notif := st.notif } : BusState) = st
  rw [hev]

/-- Witness for C6: subscribing then unsubscribing handler 9 on event 1 of
`w1` restores `w1`. -/
theorem subscribe_unsubscribe_roundtrip_witness :
    (9 : Handler) ≠ NULL ∧ (9 : Handler) ∉ w1.events 1 ∧ NULL ∈ w1.events 1 ∧
    event_bus_unsubscribe_ex (event_bus_subscribe_ex w1 1 9).1 1 9 = w1 :=
  ⟨by decide, by decide, by decide,
    subscribe_unsubscribe_roundtrip w1 1 9 (by decide) (by decide) (by decide)⟩

/-- Claim C7: neither `event_bus_push` nor `event_bus_wait` mutates the
subscription table (only subscribe/unsubscribe do, as their row updates in the
other theorems show), and a push on an event whose slot sequence is all-empty
signals no unit and leaves the whole state — table and notifications —
exactly unchanged, emitting no signals. -/
theorem push_wait_leave_table_unchanged (st : BusState) (E : Nat)
    (h : Handler) (t : Nat) :
    (event_bus_push st E).1.events = st.events ∧
    (event_bus_wait st h E t).2.events = st.events ∧
    ((∀ x ∈ st.events E, x = NULL) → event_bus_push st E = (st, [])) :=
  ⟨pushLoop_events E st (st.events E), rfl,
    fun hall => pushLoop_all_null E st (st.events E) hall⟩

/-- Witness for C7: pushing event 0 of the startup state, whose row is
all-empty, is a complete no-op. -/
theorem push_wait_leave_table_unchanged_witness :
    (∀ x ∈ initState.events 0, x = NULL) ∧
    event_bus_push initState 0 = (initState, []) :=
  ⟨by decide, (push_wait_leave_table_unchanged initState 0 0 5).2.2 (by decide)⟩

/-- Claim C8: with a latched signal (`notif ≠ 0`, set by an earlier push),
`event_bus_wait` returns `true` and its outcome does not depend on the timeout
budget; with no pending signal and no push it returns the plain boolean
`false`; and a wait consumes the latch, so a second wait with no intervening
push returns `false`. -/
theorem wait_latched_then_reset (st : BusState) (h : Handler) (E : Nat)
    (t1 t2 : Nat) :
    (st.notif h E ≠ 0 →
      (event_bus_wait st h E t1).1 = true ∧
      event_bus_wait st h E t1 = event_bus_wait st h E 0) ∧
    (st.notif h E = 0 → (event_bus_wait st h E t1).1 = false) ∧
    (event_bus_wait (event_bus_wait st h E t1).2 h E t2).1 = false := by
  refine ⟨fun hp => ⟨by simpa [event_bus_wait, ulTaskNotifyTakeIndexed] using hp, rfl⟩,
    fun hz => by simp [event_bus_wait, ulTaskNotifyTakeIndexed, hz], ?_⟩
  simp [event_bus_wait, ulTaskNotifyTakeIndexed]

/-- Witness for C8 at the state `w8`, in which task 4 has a latched signal at
index 2. -/
theorem wait_latched_then_reset_witness :
    w8.notif 4 2 ≠ 0 ∧ (event_bus_wait w8 4 2 100).1 = true ∧
    event_bus_wait w8 4 2 100 = event_bus_wait w8 4 2 0 :=
  ⟨by decide, ((wait_latched_then_reset w8 4 2 100 3).1 (by decide)).1,
    ((wait_latched_then_reset w8 4 2 100 3).1 (by decide)).2⟩

/-- Claim C9: no operation range-checks the event identifier.  Even for an
out-of-range event (`EVENT_BUS_QTY ≤ E`) every operation proceeds exactly as
for an in-range one, reading and writing the row indexed by `E`: the
subscription's assertion passes, the identity lands in row `E`, push delivers
to row `E`'s occupants, and the subscribe/unsubscribe pair round-trips.  In
the C source this unchecked access is the caller's bounds obligation. -/
theorem no_event_range_check (st : BusState) (E : Nat) (h : Handler)
    (hE : EVENT_BUS_QTY ≤ E) (hnn : h ≠ NULL) (hnp : h ∉ st.events E)
    (hfree : NULL ∈ st.events E) :
    (event_bus_subscribe_ex st E h).2 = true ∧
    h ∈ (event_bus_subscribe_ex st E h).1.events E ∧
    (event_bus_push st E).2 = (occupied (st.events E)).map (fun x => (x, E)) ∧
    event_bus_unsubscribe_ex (event_bus_subscribe_ex st E h).1 E h = st := by
  obtain ⟨l2, hsub⟩ : ∃ l2, modifyRow NULL h (st.events E) = some l2 := by
    cases hc : modifyRow NULL h (st.events E) with
    | none => exact absurd ((modifyRow_eq_none _ _ _).1 hc) (not_not_intro hfree)
    | some l2 => exact ⟨l2, rfl⟩
  have hsubst : event_bus_subscribe_ex st E h =
      ({ st with events := Function.update st.events E l2 }, true) := by
    unfold event_bus_subscribe_ex
    rw [modify_value_eq_some st E NULL h l2 hsub]
    simpa using hnn
  refine ⟨by rw [hsubst], ?_, pushLoop_sigs E st (st.events E), ?_⟩
  · rw [hsubst]
    show h ∈ Function.update st.events E l2 E
    rw [Function.update_same E l2 st.events]
    exact modifyRow_mem_new NULL h (st.events E) l2 hsub
  · have hback := modifyRow_roundtrip h (st.events E) l2 hnp hfree hsub
    rw [hsubst]
    show event_bus_unsubscribe_ex
      ({ st with events := Function.update st.events E l2 }) E h = st
    unfold event_bus_unsubscribe_ex
    rw [modify_value_eq_some _ E h NULL (st.events E)
      (by rw [show ({ st with events := Function.update st.events E l2 } :
          BusState).events E = l2 from Function.update_same E l2 st.events]
          exact hback)]
    have hev : Function.update (Function.update st.events E l2) E (st.events E)
        = st.events := by
      rw [Function.update_idem, Function.update_eq_self]
    show ({ events :=
            Function.update (Function.update st.events E l2) E (st.events E)
            notif := st.notif } : BusState) = st
    rw [hev]

/-- Witness for C9 at the out-of-range event index 7 (the enum has 5 values). -/
theorem no_event_range_check_witness :
    EVENT_BUS_QTY ≤ 7 ∧ (3 : Handler) ≠ NULL ∧ (3 : Handler) ∉ initState.events 7 ∧
    NULL ∈ initState.events 7 ∧ (event_bus_subscribe_ex initState 7 3).2 = true :=
  ⟨by decide, by decide, by decide, by decide,
    (no_event_range_check initState 7 3 (by decide) (by decide) (by decide)
      (by decide)).1⟩

/-- Claim C10: subscribing the NULL identity never records a subscription —
the state is unchanged whether or not empty slots exist — and it fails the
very same `ASSERT_POINTER` that capacity exhaustion fails (any subscribe on a
full row also asserts), so the assertion cannot distinguish a full table from
a null identity. -/
theorem subscribe_null_identity (st : BusState) (E : Nat) :
    (event_bus_subscribe_ex st E NULL).1 = st ∧
    (event_bus_subscribe_ex st E NULL).2 = false ∧
    (NULL ∉ st.events E → ∀ h2, (event_bus_subscribe_ex st E h2).2 = false) := by
  refine ⟨?_, ?_, ?_⟩
  · unfold event_bus_subscribe_ex
    by_cases hm : NULL ∈ st.events E
    · rw [modify_value_eq_some st E NULL NULL (st.events E)
        (by rw [modifyRow_self]; exact if_pos hm)]
      show ({ st with events := Function.update st.events E (st.events E) } :
        BusState) = st
      rw [Function.update_eq_self]
    · rw [modify_value_eq_none st E NULL NULL
        (by rw [modifyRow_self]; exact if_neg hm)]
  · unfold event_bus_subscribe_ex
    by_cases hm : NULL ∈ st.events E
    · rw [modify_value_eq_some st E NULL NULL (st.events E)
        (by rw [modifyRow_self]; exact if_pos hm)]
      rfl
    · rw [modify_value_eq_none st E NULL NULL
        (by rw [modifyRow_self]; exact if_neg hm)]
      rfl
  · intro hfull h2
    have hm := (modifyRow_eq_none NULL h2 (st.events E)).2 hfull
    unfold event_bus_subscribe_ex
    rw [modify_value_eq_none st E NULL h2 hm]
    rfl

/-- Witness for C10: subscribing NULL to event 0 of the startup state (which
has empty slots) changes nothing and fails the assertion, and on the full row
of `w10` an ordinary subscribe fails the same way. -/
theorem subscribe_null_identity_witness :
    (event_bus_subscribe_ex initState 0 NULL).2 = false ∧
    NULL ∉ w10.events 0 ∧ (event_bus_subscribe_ex w10 0 9).2 = false :=
  ⟨(subscribe_null_identity initState 0).2.1, by decide,
    (subscribe_null_identity w10 0).2.2 (by decide) 9⟩

end EventBus
